import Mathlib

/-!
Verification of SleepySoft/PyLoggingBackend against its specification.

The Python sources are shallowly embedded as Lean definitions:

* `LogFileWrapper.py` — the entry cache / file tailer (`LogFileWrapper` below);
* `LoggerFileBackend.py` — the older backend's line processor (`FBState`,
  `_process_log_line`);
* `LoggerBackend.py` — the Flask facade's `get_logs` route
  (`facade_get_logs`);
* `LoggerBackend_v3.py` — the session-based wrapper (`V3State`, `LogSession`,
  `get_realtime_logs`).

Python line decoding (`json.loads`) is abstracted by the `Decoded` tag carried
on each input `Line`: a line either decodes to a JSON object (a `dict`, whose
`module` / `name` / `levelname` string fields are the ones the source reads),
decodes to a non-object JSON value (on which the source's subsequent
`entry.get(...)` attribute access raises), or fails to decode
(`json.JSONDecodeError`).  Wall-clock reads (`time.time()`) are modelled by the
`now` field of the `Line` being processed.  Machine floats of the backoff logic
are modelled as exact rationals.
-/

namespace PyLoggingBackend

/-- Outcome of `json.loads` on one input line: a JSON object carrying the
string fields the source reads (`module`, `name`, `levelname`, with Python's
`.get` defaults), a non-object JSON value, or a decode failure. -/
inductive Decoded where
  | obj (module_ name levelname : String)
  | nonObj
  | malformed
deriving DecidableEq, Repr

/-- One raw input line handed to the decoder, together with the outcome of
`json.loads` on it and the wall clock at the moment it is processed. -/
structure Line where
  raw : String
  decoded : Decoded
  now : ℚ
deriving DecidableEq, Repr

/-- A cached record: either the parsed structured mapping, or the raw-text
fallback `{"raw": line, "timestamp": time.time()}` built on decode failure. -/
inductive RecordData where
  | structured (module_ name levelname : String)
  | rawRec (text : String) (timestamp : ℚ)
deriving DecidableEq, Repr

/-- A cache entry: a record plus the `_id` field assigned at admission. -/
structure Entry where
  data : RecordData
  id : ℕ
deriving DecidableEq, Repr

/-- Last `n` elements of a list: the content of a Python `deque` with
`maxlen = n` after all elements of `xs` have been appended. -/
def takeLast (n : ℕ) (xs : List α) : List α := xs.drop (xs.length - n)

/-- `deque.extend` under a `maxlen` bound: the deque keeps the last `maxlen`
elements of old-contents-then-new.  `maxlen = 0` keeps nothing (Python's
`deque(maxlen=0)` is always empty). -/
def extendMaxlen (maxlen : ℕ) (dq new : List α) : List α := takeLast maxlen (dq ++ new)

/-- State of `LogFileWrapper` (LogFileWrapper.py): the fields mutated by the
embedded operations.  `hier_edges` is the edge set of the `module_hierarchy`
`defaultdict(set)`, `seen_modules` the dedup set; threading fields and the
monitor flag are not represented. -/
structure LogFileWrapper where
  limit : ℕ
  log_entries : List Entry
  next_id : ℕ
  file_position : ℕ
  file_id : Option (ℕ × ℕ)
  hier_edges : List (String × String)
  seen_modules : List String
deriving DecidableEq, Repr

/-- `LogFileWrapper.__init__` state before `_load_initial_entries` runs. -/
def mkLFW (limit : ℕ) : LogFileWrapper :=
  { limit := limit, log_entries := [], next_id := 0, file_position := 0,
    file_id := none, hier_edges := [], seen_modules := [] }

/-- Add an element to a `set`-valued `defaultdict` edge list (set semantics:
no duplicates, insertion order kept). -/
def insertEdge (edges : List (String × String)) (e : String × String) :
    List (String × String) :=
  if edges.contains e then edges else edges ++ [e]

/-- The `(parent, child)` edges the loop `for i in range(1, len(parts) + 1)` of
`_update_module_hierarchy` inserts for the given dotted-path parts. -/
def hierEdgesFor (parts : List String) : List (String × String) :=
  (List.range parts.length).map (fun j =>
    ((if 0 < j then String.intercalate "." (parts.take j) else "root"),
     String.intercalate "." (parts.take (j + 1))))

/-- `LogFileWrapper._update_module_hierarchy`. -/
def _update_module_hierarchy (s : LogFileWrapper) (module_path : String) :
    LogFileWrapper :=
  if s.seen_modules.contains module_path then s
  else
    { s with
      seen_modules := s.seen_modules ++ [module_path],
      hier_edges := (hierEdgesFor (module_path.splitOn ".")).foldl insertEdge s.hier_edges }

/-- One iteration of the per-line loop of `_append_log_entries`: decode the
line, update the hierarchy for structured records with a non-empty `module`,
and stamp the next `_id`.  A line that decodes to a non-object JSON value
raises `AttributeError` at `entry.get('module', '')`, which the surrounding
`except Exception` swallows: the line yields no entry and consumes no id. -/
def decodeStep (s : LogFileWrapper) (l : Line) : LogFileWrapper × Option Entry :=
  match l.decoded with
  | .obj m n lvl =>
      let s := if m ≠ "" then _update_module_hierarchy s (m ++ "." ++ n) else s
      ({ s with next_id := s.next_id + 1 }, some ⟨.structured m n lvl, s.next_id⟩)
  | .nonObj => (s, none)
  | .malformed =>
      ({ s with next_id := s.next_id + 1 }, some ⟨.rawRec l.raw l.now, s.next_id⟩)

/-- The per-line loop of `_append_log_entries`: evolves the state and collects
the local `entries` list in order. -/
def appendLoop (s : LogFileWrapper) : List Line → LogFileWrapper × List Entry
  | [] => (s, [])
  | l :: ls =>
      ((appendLoop (decodeStep s l).1 ls).1,
       (decodeStep s l).2.toList ++ (appendLoop (decodeStep s l).1 ls).2)

/-- `LogFileWrapper._append_log_entries`: early-returns on an empty batch,
otherwise runs the per-line loop and `self.log_entries.extend(entries)` under
the deque's `maxlen` bound. -/
def _append_log_entries (s : LogFileWrapper) (lines : List Line) : LogFileWrapper :=
  if lines.isEmpty then s
  else
    { (appendLoop s lines).1 with
      log_entries := extendMaxlen (appendLoop s lines).1.limit
        (appendLoop s lines).1.log_entries (appendLoop s lines).2 }

/-- The entries the batch admits (the local `entries` list of
`_append_log_entries`), before any eviction. -/
def admittedEntries (s : LogFileWrapper) (lines : List Line) : List Entry :=
  (appendLoop s lines).2

/-- `LogFileWrapper._handle_rotation`: clears the entry deque, resets the file
offset and refreshes the file fingerprint (`_update_file_id`, whose `os.stat`
outcome is the `fid` argument).  It touches neither `next_id` nor the module
hierarchy. -/
def _handle_rotation (s : LogFileWrapper) (fid : Option (ℕ × ℕ)) : LogFileWrapper :=
  { s with log_entries := [], file_position := 0, file_id := fid }

/-- The file-disappearance reset inside `_monitor_file` (clear entries, zero
the offset, drop the fingerprint). -/
def handleDisappearance (s : LogFileWrapper) : LogFileWrapper :=
  { s with log_entries := [], file_position := 0, file_id := none }

/-- The bounded read of `_load_initial_entries`: the last `limit` lines when
`limit > 0`, else the whole file. -/
def boundedLines (limit : ℕ) (fileLines : List Line) : List Line :=
  if 0 < limit then takeLast limit fileLines else fileLines

/-- `LogFileWrapper._load_initial_entries` on an existing file: record the
fingerprint, admit the (bounded) current content, set the offset to
end-of-file.  On a missing file it returns unchanged. -/
def _load_initial_entries (s : LogFileWrapper) (fileExists : Bool)
    (fid : Option (ℕ × ℕ)) (fileLines : List Line) (endPos : ℕ) : LogFileWrapper :=
  if fileExists then
    let s := { s with file_id := fid }
    let s := _append_log_entries s (boundedLines s.limit fileLines)
    { s with file_position := endPos }
  else s

/-- The cache-mutating events a `LogFileWrapper` instance undergoes: a batch
admission, a rotation reset, a disappearance reset, or a reload of an existing
file (the environment supplies the fingerprint / content / end offset the
filesystem would). -/
inductive Op where
  | append (lines : List Line)
  | rotate (fid : Option (ℕ × ℕ))
  | disappear
  | load (fid : Option (ℕ × ℕ)) (fileLines : List Line) (endPos : ℕ)
deriving Repr

/-- Apply one event. -/
def step (s : LogFileWrapper) : Op → LogFileWrapper
  | .append lines => _append_log_entries s lines
  | .rotate fid => _handle_rotation s fid
  | .disappear => handleDisappearance s
  | .load fid fileLines endPos => _load_initial_entries s true fid fileLines endPos

/-- Run a sequence of events. -/
def run (s : LogFileWrapper) (ops : List Op) : LogFileWrapper := ops.foldl step s

/-- The entries an event admits from state `s`. -/
def opAdmitted (s : LogFileWrapper) : Op → List Entry
  | .append lines => admittedEntries s lines
  | .rotate _ => []
  | .disappear => []
  | .load fid fileLines _ =>
      admittedEntries { s with file_id := fid } (boundedLines s.limit fileLines)

/-- The ids assigned over a whole run, in admission order. -/
def runTrace (s : LogFileWrapper) : List Op → List ℕ
  | [] => []
  | op :: ops => (opAdmitted s op).map Entry.id ++ runTrace (step s op) ops

/-- The inner collection loop of `get_logs`: per entry, first break if `count`
results were already collected, then apply the optional filter. -/
def collectLogs (filter_func : Option (Entry → Bool)) :
    List Entry → ℕ → List Entry
  | _, 0 => []
  | [], _ + 1 => []
  | e :: rest, n + 1 =>
      match filter_func with
      | none => e :: collectLogs filter_func rest n
      | some f =>
          if f e then e :: collectLogs filter_func rest n
          else collectLogs filter_func rest (n + 1)

/-- `LogFileWrapper.get_logs`: empty cache returns `[]`; otherwise scan for
the first entry with `_id >= start_id` (the `for … else` returns `[]` when
none matches) and collect from there.  `start_id` and `count` are Python ints,
hence `ℤ`; a non-positive `count` makes the length check break immediately. -/
def get_logs (s : LogFileWrapper) (start_id count : ℤ)
    (filter_func : Option (Entry → Bool) := none) : List Entry :=
  if s.log_entries.isEmpty then []
  else
    match s.log_entries.findIdx? (fun e => decide (start_id ≤ (e.id : ℤ))) with
    | none => []
    | some i => collectLogs filter_func (s.log_entries.drop i) count.toNat

/-- `LogFileWrapper.get_total_count`. -/
def get_total_count (s : LogFileWrapper)
    (filter_func : Option (Entry → Bool) := none) : ℕ :=
  match filter_func with
  | none => s.log_entries.length
  | some f => (s.log_entries.filter f).length

/-- The dictionary `check_updates` returns. -/
structure UpdateInfo where
  has_updates : Bool
  new_count : ℤ
  min_id : ℤ
  max_id : ℤ
deriving DecidableEq, Repr

/-- `LogFileWrapper.check_updates`: on an empty cache all-zero; otherwise
`min_id`/`max_id` are the first/last resident `_id`s and
`new_count = max(0, max_id - max(min_id - 1, current_id))`. -/
def check_updates (s : LogFileWrapper) (current_id : ℤ) : UpdateInfo :=
  match s.log_entries.head?, s.log_entries.getLast? with
  | some e0, some eN =>
      let min_id : ℤ := e0.id
      let max_id : ℤ := eN.id
      let new_count := max 0 (max_id - max (min_id - 1) current_id)
      { has_updates := decide (0 < new_count), new_count := new_count,
        min_id := min_id, max_id := max_id }
  | _, _ =>
      { has_updates := false, new_count := 0, min_id := 0, max_id := 0 }

/-!
### LoggerFileBackend.py — `_process_log_line`

The older backend appends the value returned by `json.loads` to its cache
before reading `.get('levelname', …)` from it.  A decode failure is swallowed
by `except json.JSONDecodeError: pass` (the line is silently dropped); a
non-object JSON value is appended and then raises `AttributeError` out of the
function.  Level/module index lists are not represented.
-/

/-- A value held in the older backend's `log_cache`: a parsed mapping or a
non-mapping JSON value. -/
inductive FBVal where
  | structured (module_ name levelname : String)
  | nonMapping
deriving DecidableEq, Repr

/-- State of `LoggerFileBackend.LoggerBackend` relevant to line processing.
`maxlen` is the deque bound (`cache_limit_count` under `LIMIT_BY_LINE`, else
`None`). -/
structure FBState where
  maxlen : Option ℕ
  log_cache : List FBVal
  log_revision : ℕ
  fb_hier_edges : List (String × String)
  fb_seen_modules : List String
deriving DecidableEq, Repr

/-- `deque.append` under an optional `maxlen`. -/
def appendMax (maxlen : Option ℕ) (xs : List FBVal) (x : FBVal) : List FBVal :=
  match maxlen with
  | none => xs ++ [x]
  | some m => takeLast m (xs ++ [x])

/-- `LoggerBackend._update_module_hierarchy` of LoggerFileBackend.py (same
body as LogFileWrapper's, over the backend's own edge/seen sets). -/
def fbUpdateModuleHierarchy (s : FBState) (module_path : String) : FBState :=
  if s.fb_seen_modules.contains module_path then s
  else
    { s with
      fb_seen_modules := s.fb_seen_modules ++ [module_path],
      fb_hier_edges :=
        (hierEdgesFor (module_path.splitOn ".")).foldl insertEdge s.fb_hier_edges }

/-- `LoggerBackend._process_log_line` of LoggerFileBackend.py.  Returns the
state after the call and whether an exception escaped the function. -/
def _process_log_line (s : FBState) (l : Line) : FBState × Bool :=
  match l.decoded with
  | .malformed => (s, false)
  | .obj m n lvl =>
      let s := { s with
        log_cache := appendMax s.maxlen s.log_cache (.structured m n lvl),
        log_revision := s.log_revision + 1 }
      let s := if m ≠ "" then fbUpdateModuleHierarchy s m else s
      (s, false)
  | .nonObj =>
      ({ s with
        log_cache := appendMax s.maxlen s.log_cache .nonMapping,
        log_revision := s.log_revision + 1 }, true)

/-!
### LoggerBackend.py — the facade's `/logger/api/logs` route

`LoggerBackend` constructs its wrapper as
`LogFileWrapper(file_path=…, limit=…)` from LogFileWrapper.py, then calls
`self.log_wrapper.get_newest_log_id()` and
`self.log_wrapper.get_logs(start_log_id=…, count=…, filter_func=…)`.
Dispatch is embedded through the wrapper class's attribute list and the
keyword-parameter list of its `get_logs`, so that Python's `AttributeError` /
`TypeError` behaviour on the mismatched call is derived, not asserted.
-/

/-- Python exception kinds the facade's `try` block can see. -/
inductive PyErr where
  | valueError
  | typeError
  | attributeError
deriving DecidableEq, Repr

/-- A raw query-string value, abstracted by the outcome of Python's `int()`
on it: `numeric z` when it parses as the integer `z`, `nonNumeric` when the
conversion raises `ValueError`. -/
inductive ReqArg where
  | numeric (z : ℤ)
  | nonNumeric
deriving DecidableEq, Repr

/-- `int(arg)` on a request value. -/
def pyInt : ReqArg → Except PyErr ℤ
  | .numeric z => .ok z
  | .nonNumeric => .error .valueError

/-- The attributes the class body of `LogFileWrapper` (LogFileWrapper.py)
defines. -/
def lfwAttrs : List String :=
  ["__init__", "__del__", "_load_initial_entries", "_update_file_id",
   "_append_log_entries", "_check_rotation", "_handle_rotation",
   "_monitor_file", "_update_module_hierarchy", "get_module_hierarchy",
   "stop_monitoring", "get_logs", "get_total_count", "check_updates"]

/-- The keyword parameters `LogFileWrapper.get_logs` accepts. -/
def get_logs_paramNames : List String := ["start_id", "count", "filter_func"]

/-- A keyword-argument value at the facade's call site. -/
inductive KwVal where
  | int (z : ℤ)
  | pred (f : Option (Entry → Bool))

/-- `self.log_wrapper.get_logs(**kwargs)`: Python rejects an unexpected
keyword with `TypeError`, requires `start_id` and `count`, and defaults
`filter_func` to `None`; on a successful binding it runs `get_logs`. -/
def callGetLogsKw (s : LogFileWrapper) (kwargs : List (String × KwVal)) :
    Except PyErr (List Entry) :=
  if kwargs.all (fun kv => get_logs_paramNames.contains kv.1) then
    match kwargs.lookup "start_id", kwargs.lookup "count" with
    | some (.int sid), some (.int cnt) =>
        let f := match kwargs.lookup "filter_func" with
                 | some (.pred p) => p
                 | _ => none
        .ok (get_logs s sid cnt f)
    | _, _ => .error .typeError
  else .error .typeError

/-- `self.log_wrapper.get_newest_log_id()`: attribute lookup on the wrapper.
The class defines no such attribute, so the lookup raises `AttributeError`
(the `then` branch is vacuous — the name is checked against `lfwAttrs`). -/
def callGetNewestLogId (_s : LogFileWrapper) : Except PyErr ℤ :=
  if lfwAttrs.contains "get_newest_log_id" then .ok 0
  else .error .attributeError

/-- `entry.get('levelname', 'UNKNOWN')`. -/
def entryLevel (e : Entry) : String :=
  match e.data with
  | .structured _ _ lvl => lvl
  | .rawRec _ _ => "UNKNOWN"

/-- `entry.get('module', '')`. -/
def entryModule (e : Entry) : String :=
  match e.data with
  | .structured m _ _ => m
  | .rawRec _ _ => ""

/-- `entry.get('name', '')`. -/
def entryName (e : Entry) : String :=
  match e.data with
  | .structured _ n _ => n
  | .rawRec _ _ => ""

/-- The page `LoggerBackend.get_logs` would serialize on success. -/
structure Page where
  logs : List Entry
  total : ℕ
  start : ℤ
  limit : ℤ
  hasMore : Bool
deriving DecidableEq, Repr

/-- A route response: a JSON page, or `jsonify({'error': …}), 500` from the
route's `except Exception` handler. -/
inductive Resp where
  | ok (p : Page)
  | err (e : PyErr)
deriving DecidableEq, Repr

/-- The body of `LoggerBackend.get_logs` (LoggerBackend.py): parse `limit`
and `start_log_id`, fall back to `get_newest_log_id() - limit` when
`start_log_id` is absent, clamp at 0, build the level/module filter closure,
and call the wrapper. -/
def facade_get_logs_body (w : LogFileWrapper) (start_arg : Option ReqArg)
    (limit_arg : Option ReqArg) (level_filter module_filter : List String) :
    Except PyErr Page := do
  let limit ← pyInt (limit_arg.getD (.numeric 100))
  let start0 ←
    match start_arg with
    | some a => pyInt a
    | none => do
        let newest ← callGetNewestLogId w
        pure (newest - limit)
  let start_log_id := max 0 start0
  let filter_func : Entry → Bool := fun e =>
    (level_filter.isEmpty || level_filter.contains (entryLevel e)) &&
    (module_filter.isEmpty ||
      module_filter.contains (entryModule e ++ "." ++ entryName e))
  let logs ← callGetLogsKw w
    [("start_log_id", .int start_log_id), ("count", .int limit),
     ("filter_func", .pred (some filter_func))]
  let total := get_total_count w (some filter_func)
  let newest ← callGetNewestLogId w
  let hasMore :=
    match logs.getLast? with
    | none => false
    | some e => decide ((e.id : ℤ) < newest)
  pure { logs := logs, total := total, start := start_log_id, limit := limit,
         hasMore := hasMore }

/-- The full route handler: the `try`/`except Exception` boundary. -/
def facade_get_logs (w : LogFileWrapper) (start_arg limit_arg : Option ReqArg)
    (level_filter module_filter : List String) : Resp :=
  match facade_get_logs_body w start_arg limit_arg level_filter module_filter with
  | .ok p => .ok p
  | .error e => .err e

/-!
### LoggerBackend_v3.py — sessions and generation recovery
-/

/-- `LogSession` (LoggerBackend_v3.py). -/
structure LogSession where
  start_entry_index : ℤ
  current_entry_offset : ℤ
  generation : ℕ
deriving DecidableEq, Repr

/-- `LogSession.advance_offset`. -/
def LogSession.advance_offset (s : LogSession) (delta : ℤ) : LogSession :=
  { s with current_entry_offset := s.current_entry_offset + delta }

/-- `LogSession.reset`. -/
def LogSession.reset (_s : LogSession) (new_index : ℤ) (new_generation : ℕ) :
    LogSession :=
  { start_entry_index := new_index, current_entry_offset := 0,
    generation := new_generation }

/-- `LogSession.end_position`. -/
def LogSession.end_position (s : LogSession) : ℤ :=
  s.start_entry_index + s.current_entry_offset

/-- State of the v3 `LogFileWrapper` relevant to session reads. -/
structure V3State where
  limit : ℕ
  log_entries : List RecordData
  last_entry_index : ℤ
  generation : ℕ
  file_position : ℕ
deriving DecidableEq, Repr

/-- `LogFileWrapper._recover_session` (v3): on a generation mismatch the
session is reset to the cache's current newest entry index and generation. -/
def _recover_session (w : V3State) (s : LogSession) : LogSession :=
  if s.generation ≠ w.generation then s.reset w.last_entry_index w.generation
  else s

/-- `LogFileWrapper._get_logs_by_index` (v3): `islice(entries, start, end)`
with `end = min(len, start + count)`. -/
def _get_logs_by_index (w : V3State) (start_index count : ℕ) : List RecordData :=
  if w.log_entries.isEmpty then []
  else
    (w.log_entries.take (min w.log_entries.length (start_index + count))).drop
      start_index

/-- `LogFileWrapper.get_realtime_logs` (v3).  `none` models the `ValueError`
`itertools.islice` raises on a negative start index (a session lagging behind
eviction); every other path returns the delivered records and the session as
mutated by the call. -/
def get_realtime_logs (w : V3State) (s : LogSession) (count : ℤ) :
    Option (List RecordData × LogSession) :=
  let s := _recover_session w s
  let pos := s.end_position
  if w.log_entries.isEmpty || decide (w.last_entry_index ≤ pos) then some ([], s)
  else
    let oldest := max 0 (w.last_entry_index - w.log_entries.length + 1)
    let n := min count (min (w.last_entry_index - pos)
      ((w.log_entries.length : ℤ) - (pos - oldest)))
    if n ≤ 0 then some ([], s)
    else if pos - oldest < 0 then none
    else some (_get_logs_by_index w (pos - oldest).toNat n.toNat,
      s.advance_offset n)

/-!
### `_monitor_file` backoff bookkeeping (LogFileWrapper.py)
-/

/-- The two poll observations the backoff logic distinguishes: the file grew,
or nothing changed. -/
inductive Poll where
  | growth
  | idle
deriving DecidableEq, Repr

/-- The monitor loop's backoff state. -/
structure Backoff where
  no_changes_count : ℕ
  sleep_duration : ℚ
deriving DecidableEq, Repr

/-- `__init__` values: `_no_changes_count = 0`, `_sleep_duration = 0.1`. -/
def initBackoff : Backoff := { no_changes_count := 0, sleep_duration := 1 / 10 }

/-- One iteration of `_monitor_file` as it affects the backoff state: the
top-of-loop reset fires whenever `_no_changes_count > 0` (regardless of what
this iteration will observe); an idle poll then increments the counter and
multiplies the interval (capped at 10.0); the iteration ends with
`time.sleep(self._sleep_duration)`, whose duration is returned. -/
def monitorStep (b : Backoff) (p : Poll) : Backoff × ℚ :=
  let b := if 0 < b.no_changes_count then
    { no_changes_count := 0, sleep_duration := 1 / 10 } else b
  match p with
  | .growth => (b, b.sleep_duration)
  | .idle =>
      let b := { no_changes_count := b.no_changes_count + 1,
                 sleep_duration := min (b.sleep_duration * (3 / 2)) 10 }
      (b, b.sleep_duration)

/-- The sleep durations over a sequence of poll observations. -/
def sleepTrace (b : Backoff) : List Poll → List ℚ
  | [] => []
  | p :: ps => (monitorStep b p).2 :: sleepTrace (monitorStep b p).1 ps

/-!
## Helper lemmas
-/

theorem length_takeLast (n : ℕ) (xs : List α) :
    (takeLast n xs).length = min n xs.length := by
  simp [takeLast]
  omega

theorem takeLast_map (f : α → β) (n : ℕ) (xs : List α) :
    (takeLast n xs).map f = takeLast n (xs.map f) := by
  simp [takeLast]

theorem takeLast_of_length_le (n : ℕ) (xs : List α) (h : xs.length ≤ n) :
    takeLast n xs = xs := by
  unfold takeLast
  rw [Nat.sub_eq_zero_of_le h, List.drop_zero]

theorem range'_drop (a n m : ℕ) :
    (List.range' a n).drop m = List.range' (a + m) (n - m) := by
  induction n generalizing a m with
  | zero => simp
  | succ n ih =>
      cases m with
      | zero => simp
      | succ m =>
          have h1 : a + 1 + m = a + (m + 1) := by omega
          have h2 : n - m = n + 1 - (m + 1) := by omega
          rw [List.range'_succ, List.drop_succ_cons, ih (a + 1) m, h1, h2]

theorem takeLast_range' (m a n : ℕ) :
    takeLast m (List.range' a n) = List.range' (a + (n - m)) (n - (n - m)) := by
  rw [takeLast, List.length_range', range'_drop]

theorem umh_next_id (s : LogFileWrapper) (p : String) :
    (_update_module_hierarchy s p).next_id = s.next_id := by
  unfold _update_module_hierarchy
  split <;> rfl

theorem umh_log_entries (s : LogFileWrapper) (p : String) :
    (_update_module_hierarchy s p).log_entries = s.log_entries := by
  unfold _update_module_hierarchy
  split <;> rfl

theorem umh_limit (s : LogFileWrapper) (p : String) :
    (_update_module_hierarchy s p).limit = s.limit := by
  unfold _update_module_hierarchy
  split <;> rfl

theorem decodeStep_spec (s : LogFileWrapper) (l : Line) :
    (decodeStep s l).1.next_id = s.next_id + (decodeStep s l).2.toList.length ∧
    (decodeStep s l).1.log_entries = s.log_entries ∧
    (decodeStep s l).1.limit = s.limit ∧
    (decodeStep s l).2.toList.map Entry.id
      = List.range' s.next_id (decodeStep s l).2.toList.length := by
  cases hl : l.decoded with
  | obj m n lvl =>
      by_cases hm : m = "" <;>
        simp [decodeStep, hl, hm, umh_next_id, umh_log_entries, umh_limit]
  | nonObj => simp [decodeStep, hl]
  | malformed => simp [decodeStep, hl]

theorem appendLoop_spec (lines : List Line) (s : LogFileWrapper) :
    (appendLoop s lines).1.next_id = s.next_id + (appendLoop s lines).2.length ∧
    (appendLoop s lines).1.log_entries = s.log_entries ∧
    (appendLoop s lines).1.limit = s.limit ∧
    (appendLoop s lines).2.map Entry.id
      = List.range' s.next_id (appendLoop s lines).2.length := by
  induction lines generalizing s with
  | nil => simp [appendLoop]
  | cons l ls ih =>
      obtain ⟨d1, d2, d3, d4⟩ := decodeStep_spec s l
      obtain ⟨i1, i2, i3, i4⟩ := ih (decodeStep s l).1
      refine ⟨?_, ?_, ?_, ?_⟩
      · simp only [appendLoop, List.length_append]
        omega
      · simpa [appendLoop, i2] using d2
      · simpa [appendLoop, i3] using d3
      · simp only [appendLoop, List.map_append, d4, i4, d1]
        rw [List.range'_append_1]
        simp
        omega

theorem admittedEntries_ids (s : LogFileWrapper) (lines : List Line) :
    (admittedEntries s lines).map Entry.id
      = List.range' s.next_id (admittedEntries s lines).length :=
  (appendLoop_spec lines s).2.2.2

/-- Field content of `_append_log_entries` on a non-empty batch. -/
theorem append_log_entries_pos (s : LogFileWrapper) (lines : List Line)
    (h : lines.isEmpty = false) :
    (_append_log_entries s lines).next_id
        = s.next_id + (admittedEntries s lines).length ∧
    (_append_log_entries s lines).limit = s.limit ∧
    (_append_log_entries s lines).log_entries
        = extendMaxlen s.limit s.log_entries (admittedEntries s lines) := by
  obtain ⟨a1, a2, a3, _⟩ := appendLoop_spec lines s
  unfold _append_log_entries
  simp only [h, Bool.false_eq_true, if_false]
  exact ⟨a1, a3, by rw [a2, a3]; rfl⟩

theorem append_log_entries_nil (s : LogFileWrapper) (lines : List Line)
    (h : lines.isEmpty = true) : _append_log_entries s lines = s := by
  unfold _append_log_entries
  simp [h]

theorem appendLoop_of_isEmpty (lines : List Line) (h : lines.isEmpty)
    (s : LogFileWrapper) : appendLoop s lines = (s, []) := by
  cases lines with
  | nil => rfl
  | cons l ls => simp at h

/-!
## C1 — monotonic consecutive ids across the whole run
-/

/-- Ids an operation assigns, and how it advances `next_id`. -/
theorem opAdmitted_spec (s : LogFileWrapper) (op : Op) :
    (opAdmitted s op).map Entry.id
      = List.range' s.next_id (opAdmitted s op).length ∧
    (step s op).next_id = s.next_id + (opAdmitted s op).length := by
  cases op with
  | append lines =>
      refine ⟨admittedEntries_ids s lines, ?_⟩
      show (_append_log_entries s lines).next_id = _
      by_cases h : lines.isEmpty
      · rw [append_log_entries_nil s lines (by simpa using h)]
        simp [opAdmitted, admittedEntries, appendLoop_of_isEmpty lines h]
      · simpa [opAdmitted] using (append_log_entries_pos s lines (by simpa using h)).1
  | rotate fid => simp [opAdmitted, step, _handle_rotation]
  | disappear => simp [opAdmitted, step, handleDisappearance]
  | load fid fileLines endPos =>
      refine ⟨admittedEntries_ids _ _, ?_⟩
      show (_append_log_entries { s with file_id := fid }
        (boundedLines s.limit fileLines)).next_id = _
      by_cases h : (boundedLines s.limit fileLines).isEmpty
      · rw [append_log_entries_nil _ _ (by simpa using h)]
        simp [opAdmitted, admittedEntries, appendLoop_of_isEmpty _ h]
      · simpa [opAdmitted] using (append_log_entries_pos { s with file_id := fid }
          (boundedLines s.limit fileLines) (by simpa using h)).1

theorem runTrace_spec (ops : List Op) (s : LogFileWrapper) :
    runTrace s ops = List.range' s.next_id (runTrace s ops).length ∧
    (run s ops).next_id = s.next_id + (runTrace s ops).length := by
  induction ops generalizing s with
  | nil => simp [runTrace, run]
  | cons op ops ih =>
      obtain ⟨o1, o2⟩ := opAdmitted_spec s op
      obtain ⟨r1, r2⟩ := ih (step s op)
      constructor
      · show (opAdmitted s op).map Entry.id ++ runTrace (step s op) ops
            = List.range' s.next_id
              ((opAdmitted s op).map Entry.id ++ runTrace (step s op) ops).length
        rw [o1, r1, o2]
        simp only [List.length_append, List.length_range', List.length_map]
        rw [List.range'_append_1, Nat.add_comm]
      · show (run (step s op) ops).next_id
            = s.next_id + ((opAdmitted s op).map Entry.id ++ runTrace (step s op) ops).length
        rw [r2, o2]
        simp only [List.length_append, List.length_map]
        omega

theorem chain'_succ_range' (a n : ℕ) :
    List.Chain' (fun x y => y = x + 1) (List.range' a n) := by
  cases n with
  | zero => simp
  | succ n =>
      rw [List.range'_succ]
      exact List.chain_succ_range' a n 1

/-- C1: over every sequence of admissions, rotations, disappearances and
reloads, the ids assigned at admission time form the initial segment of ℕ in
order: consecutive (each id is its predecessor plus one), strictly
increasing, and never reused — `_handle_rotation` does not touch `next_id`,
so rotation does not restart numbering. -/
theorem C1_ids_consecutive_across_rotations (limit : ℕ) (ops : List Op) :
    runTrace (mkLFW limit) ops = List.range (runTrace (mkLFW limit) ops).length ∧
    (runTrace (mkLFW limit) ops).Pairwise (· < ·) ∧
    List.Chain' (fun a b => b = a + 1) (runTrace (mkLFW limit) ops) := by
  have h := (runTrace_spec ops (mkLFW limit)).1
  have h0 : (mkLFW limit).next_id = 0 := rfl
  rw [h0] at h
  refine ⟨by rw [h, List.range_eq_range']; simp, ?_, ?_⟩
  · rw [h]
    exact List.pairwise_lt_range' 0 _
  · rw [h]
    exact chain'_succ_range' 0 _

/-!
## C2 — resident-window invariant
-/

/-- The resident-window invariant: resident ids are the consecutive block of
length `|log_entries|` ending just below `next_id`, and the window respects
the deque bound. -/
def Inv (s : LogFileWrapper) : Prop :=
  s.log_entries.map Entry.id
      = List.range' (s.next_id - s.log_entries.length) s.log_entries.length ∧
  s.log_entries.length ≤ s.next_id ∧
  s.log_entries.length ≤ s.limit

theorem extend_ids (L lo nid k : ℕ) (h2 : lo ≤ nid) :
    takeLast L (List.range' (nid - lo) lo ++ List.range' nid k)
      = List.range' ((nid + k) - min L (lo + k)) (min L (lo + k)) := by
  have hm : nid - lo + lo = nid := Nat.sub_add_cancel h2
  have hran := List.range'_append_1 (nid - lo) lo k
  rw [hm] at hran
  rw [hran, takeLast_range']
  have e1 : (nid - lo) + ((k + lo) - L) = (nid + k) - min L (lo + k) := by omega
  have e2 : (k + lo) - ((k + lo) - L) = min L (lo + k) := by omega
  rw [e1, e2]

theorem Inv_append (s : LogFileWrapper) (lines : List Line) (h : Inv s) :
    Inv (_append_log_entries s lines) := by
  by_cases he : lines.isEmpty
  · rw [append_log_entries_nil s lines (by simpa using he)]
    exact h
  · obtain ⟨p1, p2, p3⟩ := append_log_entries_pos s lines (by simpa using he)
    obtain ⟨h1, h2, h3⟩ := h
    have hids := admittedEntries_ids s lines
    have hlen : (_append_log_entries s lines).log_entries.length
        = min s.limit (s.log_entries.length + (admittedEntries s lines).length) := by
      rw [p3]
      simp only [extendMaxlen]
      rw [length_takeLast]
      simp
    refine ⟨?_, by rw [hlen, p1]; omega, by rw [hlen, p2]; omega⟩
    rw [hlen, p1, p3]
    simp only [extendMaxlen]
    rw [takeLast_map, List.map_append, h1, hids,
      extend_ids s.limit s.log_entries.length s.next_id
        (admittedEntries s lines).length h2]

theorem Inv_rotate (s : LogFileWrapper) (fid : Option (ℕ × ℕ)) (h : Inv s) :
    Inv (_handle_rotation s fid) := by
  refine ⟨by simp [_handle_rotation], by simp [_handle_rotation], by simp [_handle_rotation]⟩

theorem Inv_disappear (s : LogFileWrapper) (h : Inv s) :
    Inv (handleDisappearance s) := by
  refine ⟨by simp [handleDisappearance], by simp [handleDisappearance],
    by simp [handleDisappearance]⟩

theorem Inv_load (s : LogFileWrapper) (fid : Option (ℕ × ℕ))
    (fileLines : List Line) (endPos : ℕ) (h : Inv s) :
    Inv (_load_initial_entries s true fid fileLines endPos) := by
  have h0 : Inv { s with file_id := fid } := h
  exact Inv_append { s with file_id := fid } (boundedLines s.limit fileLines) h0

theorem Inv_step (s : LogFileWrapper) (op : Op) (h : Inv s) : Inv (step s op) := by
  cases op with
  | append lines => exact Inv_append s lines h
  | rotate fid => exact Inv_rotate s fid h
  | disappear => exact Inv_disappear s h
  | load fid fileLines endPos => exact Inv_load s fid fileLines endPos h

theorem Inv_mk (limit : ℕ) : Inv (mkLFW limit) := by
  refine ⟨by simp [mkLFW], by simp [mkLFW], by simp [mkLFW]⟩

theorem Inv_run (ops : List Op) (s : LogFileWrapper) (h : Inv s) :
    Inv (run s ops) := by
  induction ops generalizing s with
  | nil => exact h
  | cons op ops ih => exact ih (step s op) (Inv_step s op h)

theorem step_limit (s : LogFileWrapper) (op : Op) : (step s op).limit = s.limit := by
  cases op with
  | append lines =>
      by_cases h : lines.isEmpty
      · rw [show step s (.append lines) = _append_log_entries s lines from rfl,
          append_log_entries_nil s lines (by simpa using h)]
      · exact (append_log_entries_pos s lines (by simpa using h)).2.1
  | rotate fid => rfl
  | disappear => rfl
  | load fid fileLines endPos =>
      show (_append_log_entries { s with file_id := fid }
        (boundedLines s.limit fileLines)).limit = s.limit
      by_cases h : (boundedLines s.limit fileLines).isEmpty
      · rw [append_log_entries_nil _ _ (by simpa using h)]
      · exact (append_log_entries_pos { s with file_id := fid }
          (boundedLines s.limit fileLines) (by simpa using h)).2.1

theorem run_limit (ops : List Op) (s : LogFileWrapper) : (run s ops).limit = s.limit := by
  induction ops generalizing s with
  | nil => rfl
  | cons op ops ih => rw [show run s (op :: ops) = run (step s op) ops from rfl,
      ih (step s op), step_limit]

/-- C2: in every state reachable by admissions, rotations, disappearances and
reloads from a fresh wrapper with positive capacity, the resident window is
bounded by the capacity and, when non-empty, spans the consecutive id block
`[max_id - len + 1, max_id]` with `next_id = max_id + 1`. -/
theorem C2_window_invariant (limit : ℕ) (ops : List Op) (hpos : 0 < limit) :
    (run (mkLFW limit) ops).log_entries.length ≤ limit ∧
    ∀ e0 eN, (run (mkLFW limit) ops).log_entries.head? = some e0 →
      (run (mkLFW limit) ops).log_entries.getLast? = some eN →
      eN.id - e0.id + 1 = (run (mkLFW limit) ops).log_entries.length ∧
      (run (mkLFW limit) ops).next_id = eN.id + 1 := by
  obtain ⟨h1, h2, h3⟩ := Inv_run ops (mkLFW limit) (Inv_mk limit)
  rw [run_limit ops (mkLFW limit)] at h3
  refine ⟨h3, ?_⟩
  intro e0 eN h0 hN
  have hlen0 : (run (mkLFW limit) ops).log_entries.length ≠ 0 := by
    intro hc
    rw [List.length_eq_zero] at hc
    rw [hc] at h0
    simp at h0
  have hm0 : ((run (mkLFW limit) ops).log_entries.map Entry.id).head? = some e0.id := by
    rw [List.head?_map, h0]
    rfl
  have hmN : ((run (mkLFW limit) ops).log_entries.map Entry.id).getLast? = some eN.id := by
    rw [List.getLast?_map, hN]
    rfl
  rw [h1, List.head?_range', if_neg hlen0] at hm0
  rw [h1, List.getLast?_range', if_neg hlen0] at hmN
  have he0 := Option.some.inj hm0
  have heN := Option.some.inj hmN
  omega

/-!
## C3 — `get_logs` pagination contract
-/

theorem collectLogs_sublist (f : Option (Entry → Bool)) :
    ∀ (xs : List Entry) (n : ℕ), (collectLogs f xs n).Sublist xs := by
  intro xs
  induction xs with
  | nil =>
      intro n
      cases n <;> simp [collectLogs]
  | cons e rest ih =>
      intro n
      cases n with
      | zero => simp [collectLogs]
      | succ n =>
          cases f with
          | none =>
              simp only [collectLogs]
              exact (ih n).cons₂ e
          | some g =>
              by_cases hg : g e
              · simp only [collectLogs, hg, if_true]
                exact (ih n).cons₂ e
              · simp only [collectLogs, hg, if_false]
                exact (ih (n + 1)).cons e

theorem collectLogs_length_le (f : Option (Entry → Bool)) :
    ∀ (xs : List Entry) (n : ℕ), (collectLogs f xs n).length ≤ n := by
  intro xs
  induction xs with
  | nil =>
      intro n
      cases n <;> simp [collectLogs]
  | cons e rest ih =>
      intro n
      cases n with
      | zero => simp [collectLogs]
      | succ n =>
          cases f with
          | none =>
              simp only [collectLogs, List.length_cons]
              exact Nat.succ_le_succ (ih n)
          | some g =>
              by_cases hg : g e
              · simp only [collectLogs, hg, if_true, List.length_cons]
                exact Nat.succ_le_succ (ih n)
              · simp only [collectLogs, hg, if_false]
                exact ih (n + 1)

theorem collectLogs_passes (g : Entry → Bool) :
    ∀ (xs : List Entry) (n : ℕ) (e : Entry),
      e ∈ collectLogs (some g) xs n → g e = true := by
  intro xs
  induction xs with
  | nil =>
      intro n e he
      cases n <;> simp [collectLogs] at he
  | cons x rest ih =>
      intro n e he
      cases n with
      | zero => simp [collectLogs] at he
      | succ n =>
          by_cases hg : g x
          · simp only [collectLogs, hg, if_true, List.mem_cons] at he
            rcases he with rfl | he
            · exact hg
            · exact ih n e he
          · simp only [collectLogs, hg, if_false] at he
            exact ih (n + 1) e he

theorem get_logs_sublist (s : LogFileWrapper) (start_id count : ℤ)
    (f : Option (Entry → Bool)) :
    (get_logs s start_id count f).Sublist s.log_entries := by
  unfold get_logs
  split
  · exact List.nil_sublist _
  · split
    · exact List.nil_sublist _
    · exact (collectLogs_sublist f _ _).trans (List.drop_sublist _ _)

theorem get_logs_length_le (s : LogFileWrapper) (start_id count : ℤ)
    (f : Option (Entry → Bool)) :
    (get_logs s start_id count f).length ≤ count.toNat := by
  unfold get_logs
  split
  · simp
  · split
    · simp
    · exact collectLogs_length_le f _ _

theorem get_logs_ge_start (s : LogFileWrapper)
    (hWF : s.log_entries.Pairwise (fun a b => a.id < b.id))
    (start_id count : ℤ) (f : Option (Entry → Bool)) (e : Entry)
    (he : e ∈ get_logs s start_id count f) : start_id ≤ (e.id : ℤ) := by
  revert he
  unfold get_logs
  split
  · intro he
    simp at he
  · split
    · intro he
      simp at he
    · next i heq =>
        intro he
        have hmem : e ∈ s.log_entries.drop i :=
          (collectLogs_sublist f _ _).subset he
        rw [List.findIdx?_eq_some_iff_getElem] at heq
        obtain ⟨hi, hp, -⟩ := heq
        have hstart : start_id ≤ (s.log_entries[i].id : ℤ) := by
          simpa using hp
        have hdrop : s.log_entries.drop i
            = s.log_entries[i] :: s.log_entries.drop (i + 1) :=
          List.drop_eq_getElem_cons hi
        have hpw : (s.log_entries.drop i).Pairwise (fun a b => a.id < b.id) :=
          List.Pairwise.sublist (List.drop_sublist i s.log_entries) hWF
        rw [hdrop] at hmem hpw
        rcases List.mem_cons.1 hmem with rfl | hmem'
        · exact hstart
        · have := List.rel_of_pairwise_cons hpw hmem'
          have : (s.log_entries[i].id : ℤ) ≤ (e.id : ℤ) := by
            exact_mod_cast Nat.le_of_lt this
          omega

theorem get_logs_all_below (s : LogFileWrapper) (start_id count : ℤ)
    (f : Option (Entry → Bool))
    (h : ∀ e ∈ s.log_entries, (e.id : ℤ) < start_id) :
    get_logs s start_id count f = [] := by
  unfold get_logs
  split
  · rfl
  · split
    · rfl
    · next i heq =>
        exfalso
        rw [List.findIdx?_eq_some_iff_getElem] at heq
        obtain ⟨hi, hp, -⟩ := heq
        have h1 : start_id ≤ (s.log_entries[i].id : ℤ) := by simpa using hp
        have h2 := h s.log_entries[i] (s.log_entries.getElem_mem hi)
        omega

theorem get_logs_below_min (s : LogFileWrapper) (start_id count : ℤ)
    (f : Option (Entry → Bool)) (e0 : Entry)
    (h0 : s.log_entries.head? = some e0) (hlt : start_id < (e0.id : ℤ)) :
    get_logs s start_id count f = get_logs s (e0.id : ℤ) count f := by
  cases hl : s.log_entries with
  | nil =>
      rw [hl] at h0
      simp at h0
  | cons a rest =>
      have ha : a = e0 := by
        rw [hl] at h0
        simpa using h0
      subst ha
      unfold get_logs
      rw [hl]
      have hc1 : decide (start_id ≤ (a.id : ℤ)) = true := by
        simp
        omega
      have hc2 : decide ((a.id : ℤ) ≤ (a.id : ℤ)) = true := by simp
      simp [List.findIdx?_cons, hc1, hc2]

/-- C3: `get_logs` on a cache whose resident ids are strictly increasing (as
in every reachable state) returns, in ascending id order, at most `count`
resident records with `_id ≥ start_id`, all satisfying the optional filter;
when `start_id` exceeds every resident id it returns `[]`; and a `start_id`
below the minimum resident id yields exactly the result of scanning from that
minimum, with no error. -/
theorem C3_get_logs_contract (s : LogFileWrapper)
    (hWF : s.log_entries.Pairwise (fun a b => a.id < b.id))
    (start_id count : ℤ) (f : Option (Entry → Bool)) :
    (get_logs s start_id count f).Sublist s.log_entries ∧
    (get_logs s start_id count f).Pairwise (fun a b => a.id < b.id) ∧
    (get_logs s start_id count f).length ≤ count.toNat ∧
    (∀ e ∈ get_logs s start_id count f,
      start_id ≤ (e.id : ℤ) ∧ ∀ g, f = some g → g e = true) ∧
    ((∀ e ∈ s.log_entries, (e.id : ℤ) < start_id) →
      get_logs s start_id count f = []) ∧
    (∀ e0, s.log_entries.head? = some e0 → start_id < (e0.id : ℤ) →
      get_logs s start_id count f = get_logs s (e0.id : ℤ) count f) := by
  refine ⟨get_logs_sublist s start_id count f,
    List.Pairwise.sublist (get_logs_sublist s start_id count f) hWF,
    get_logs_length_le s start_id count f, ?_, ?_, ?_⟩
  · intro e he
    refine ⟨get_logs_ge_start s hWF start_id count f e he, ?_⟩
    intro g hg
    subst hg
    revert he
    unfold get_logs
    split
    · intro he
      simp at he
    · split
      · intro he
        simp at he
      · intro he
        exact collectLogs_passes g _ _ e he
  · exact get_logs_all_below s start_id count f
  · intro e0 h0 hlt
    exact get_logs_below_min s start_id count f e0 h0 hlt

/-!
## C4 — `check_updates` change detection
-/

/-- C4: on a non-empty cache whose resident id range is `[e0.id, eN.id]`,
`check_updates x` reports updates exactly when `max_id > x`, and its
`new_count` is `max(0, max_id - max(min_id - 1, x))`. -/
theorem C4_check_updates (s : LogFileWrapper) (x : ℤ) (e0 eN : Entry)
    (h0 : s.log_entries.head? = some e0) (hN : s.log_entries.getLast? = some eN)
    (hle : e0.id ≤ eN.id) :
    ((check_updates s x).has_updates = true ↔ x < (eN.id : ℤ)) ∧
    (check_updates s x).new_count
      = max 0 ((eN.id : ℤ) - max ((e0.id : ℤ) - 1) x) := by
  have hred : check_updates s x =
      { has_updates := decide (0 < max 0 ((eN.id : ℤ) - max ((e0.id : ℤ) - 1) x)),
        new_count := max 0 ((eN.id : ℤ) - max ((e0.id : ℤ) - 1) x),
        min_id := (e0.id : ℤ), max_id := (eN.id : ℤ) } := by
    unfold check_updates
    rw [h0, hN]
  rw [hred]
  refine ⟨?_, rfl⟩
  simp only [decide_eq_true_eq]
  omega

/-!
## Concrete witness inputs
-/

/-- A line that fails structured decode. -/
def wRawLine : Line := { raw := "plain", decoded := .malformed, now := 0 }

/-- A line decoding to a JSON object with `module`/`name` fields. -/
def wObjLine : Line := { raw := "j", decoded := .obj "auth" "login" "INFO", now := 0 }

/-- A line decoding to a non-object JSON value. -/
def wNumLine : Line := { raw := "42", decoded := .nonObj, now := 0 }

/-- A concrete reachable state: capacity 2, three admitted raw lines (so the
first admitted record, id 0, has been evicted). -/
def wState : LogFileWrapper :=
  run (mkLFW 2) [Op.append [wRawLine, wRawLine, wRawLine]]

/-- The oldest resident entry of `wState`. -/
def wE0 : Entry := { data := .rawRec "plain" 0, id := 1 }

/-- The newest resident entry of `wState`. -/
def wEN : Entry := { data := .rawRec "plain" 0, id := 2 }

/-- Witness for `C2_window_invariant` at a concrete run. -/
theorem C2_window_invariant_witness :
    (0 : ℕ) < 2 ∧
    (run (mkLFW 2) [Op.append [wRawLine, wRawLine, wRawLine]]).log_entries.length ≤ 2 ∧
    (wEN.id - wE0.id + 1
        = (run (mkLFW 2) [Op.append [wRawLine, wRawLine, wRawLine]]).log_entries.length ∧
      (run (mkLFW 2) [Op.append [wRawLine, wRawLine, wRawLine]]).next_id = wEN.id + 1) :=
  ⟨by decide,
   (C2_window_invariant 2 [Op.append [wRawLine, wRawLine, wRawLine]] (by decide)).1,
   (C2_window_invariant 2 [Op.append [wRawLine, wRawLine, wRawLine]] (by decide)).2
     wE0 wEN (by decide) (by decide)⟩

/-- Witness for `C3_get_logs_contract`: with every resident id below 5, the
scan returns the empty list. -/
theorem C3_get_logs_contract_witness : get_logs wState 5 10 none = [] :=
  (C3_get_logs_contract wState (by decide) 5 10 none).2.2.2.2.1 (by decide)

/-- Witness for `C4_check_updates` at the concrete two-entry state. -/
theorem C4_check_updates_witness :
    ((check_updates wState 1).has_updates = true ↔ (1 : ℤ) < (wEN.id : ℤ)) ∧
    (check_updates wState 1).new_count
      = max 0 ((wEN.id : ℤ) - max ((wE0.id : ℤ) - 1) 1) :=
  C4_check_updates wState 1 wE0 wEN (by decide) (by decide) (by decide)

/-!
## C5 — line-decoder behaviour
-/

/-- C5 counterexample: the line `"42"` decodes to a non-object JSON value;
`_append_log_entries` admits zero records for it (the `AttributeError` from
`entry.get` is swallowed and the line dropped), not exactly one. -/
theorem C5_counterexample_nonobject_dropped :
    (admittedEntries (mkLFW 10) [wNumLine]).length ≠ 1 := by decide

theorem decode_if_next_id (s : LogFileWrapper) (m n : String) :
    (if m ≠ "" then _update_module_hierarchy s (m ++ "." ++ n) else s).next_id
      = s.next_id := by
  split
  · exact umh_next_id s (m ++ "." ++ n)
  · rfl

theorem decode_if_next_id' (s : LogFileWrapper) (m n : String) :
    (if m = "" then s else _update_module_hierarchy s (m ++ "." ++ n)).next_id
      = s.next_id := by
  split
  · rfl
  · exact umh_next_id s (m ++ "." ++ n)

/-- C5 (amended): per input line, `LogFileWrapper`'s decoder admits exactly
one structured record when the line decodes to a JSON object, exactly one
raw-fallback record (original text plus decode wall-clock time) when decoding
fails, and none at all — the line is dropped, exception contained — when it
decodes to a non-object JSON value.  `LoggerFileBackend._process_log_line`
silently drops a malformed line with no record and no exception, appends a
structured record for an object line, and on a non-object JSON value appends
the value and lets the `AttributeError` escape. -/
theorem C5_line_decoder_amended :
    (∀ (s : LogFileWrapper) (l : Line),
      (∀ m n lvl, l.decoded = .obj m n lvl →
        admittedEntries s [l] = [{ data := .structured m n lvl, id := s.next_id }]) ∧
      (l.decoded = .malformed →
        admittedEntries s [l] = [{ data := .rawRec l.raw l.now, id := s.next_id }]) ∧
      (l.decoded = .nonObj → admittedEntries s [l] = [])) ∧
    (∀ (t : FBState) (l : Line),
      (l.decoded = .malformed → _process_log_line t l = (t, false)) ∧
      (l.decoded = .nonObj →
        (_process_log_line t l).1.log_cache
            = appendMax t.maxlen t.log_cache .nonMapping ∧
        (_process_log_line t l).2 = true) ∧
      (∀ m n lvl, l.decoded = .obj m n lvl →
        (_process_log_line t l).1.log_cache
            = appendMax t.maxlen t.log_cache (.structured m n lvl) ∧
        (_process_log_line t l).2 = false)) := by
  constructor
  · intro s l
    refine ⟨?_, ?_, ?_⟩
    · intro m n lvl hl
      simp [admittedEntries, appendLoop, decodeStep, hl, decode_if_next_id s m n,
        decode_if_next_id' s m n]
    · intro hl
      simp [admittedEntries, appendLoop, decodeStep, hl]
    · intro hl
      simp [admittedEntries, appendLoop, decodeStep, hl]
  · intro t l
    refine ⟨?_, ?_, ?_⟩
    · intro hl
      simp [_process_log_line, hl]
    · intro hl
      simp [_process_log_line, hl]
    · intro m n lvl hl
      by_cases hm : m = "" <;>
        simp [_process_log_line, hl, hm, fbUpdateModuleHierarchy] <;>
        split <;> rfl

/-- Witness for `C5_line_decoder_amended`: the malformed line is admitted as
its raw fallback with the next id. -/
theorem C5_line_decoder_amended_witness :
    admittedEntries (mkLFW 10) [wRawLine]
      = [{ data := .rawRec "plain" 0, id := 0 }] :=
  (C5_line_decoder_amended.1 (mkLFW 10) wRawLine).2.1 (by decide)

/-!
## C6 — what the rotation reset clears
-/

/-- A reachable state with a non-empty module hierarchy. -/
def c6Base : LogFileWrapper := run (mkLFW 10) [Op.append [wObjLine]]

/-- C6 counterexample: immediately after the rotation reset it is not the
case that the hierarchy map and the seen-set are both empty — the seen-set
still holds the path recorded before the rotation. -/
theorem C6_counterexample_reset_keeps_hierarchy :
    ¬((_handle_rotation c6Base none).hier_edges = [] ∧
      (_handle_rotation c6Base none).seen_modules = []) :=
  fun hc => absurd hc.2 (by decide)

/-- C6 (amended): the rotation reset and the disappearance reset clear the
entry deque and zero the file offset, but leave the module hierarchy and the
seen-module set untouched — both persist across rotation, truncation and
disappearance. -/
theorem C6_reset_keeps_hierarchy_amended (s : LogFileWrapper)
    (fid : Option (ℕ × ℕ)) :
    (_handle_rotation s fid).log_entries = [] ∧
    (_handle_rotation s fid).file_position = 0 ∧
    (_handle_rotation s fid).hier_edges = s.hier_edges ∧
    (_handle_rotation s fid).seen_modules = s.seen_modules ∧
    (handleDisappearance s).log_entries = [] ∧
    (handleDisappearance s).file_position = 0 ∧
    (handleDisappearance s).hier_edges = s.hier_edges ∧
    (handleDisappearance s).seen_modules = s.seen_modules :=
  ⟨rfl, rfl, rfl, rfl, rfl, rfl, rfl, rfl⟩

/-!
## C7 — the facade route against this wrapper
-/

/-- C7: `LoggerBackend.get_logs` returns the `except`-handler error response
on every request, well-formed ones included: with a numeric `start_log_id`
the wrapper call `get_logs(start_log_id=…)` raises `TypeError` (the wrapper's
`get_logs` accepts no such keyword), and with `start_log_id` absent the call
`get_newest_log_id()` raises `AttributeError` (no such attribute). -/
theorem C7_facade_get_logs_always_errors (w : LogFileWrapper) (sid limit : ℤ)
    (levels mods : List String) :
    facade_get_logs w (some (.numeric sid)) (some (.numeric limit)) levels mods
        = .err .typeError ∧
    facade_get_logs w none (some (.numeric limit)) levels mods
        = .err .attributeError :=
  ⟨rfl, rfl⟩

/-!
## C8 — capacity 0
-/

theorem takeLast_zero (xs : List α) : takeLast 0 xs = [] := by
  simp [takeLast]

/-- C8: constructed with capacity 0, the startup read is indeed unbounded
(the whole file content is decoded and admitted, advancing `next_id`), but
`deque(maxlen=0)` retains nothing: no record is ever resident. -/
theorem C8_capacity_zero_retains_nothing :
    (∀ fileLines : List Line,
      (_load_initial_entries (mkLFW 0) true none fileLines 9).log_entries = []) ∧
    (_load_initial_entries (mkLFW 0) true none [wRawLine] 9).next_id = 1 := by
  constructor
  · intro fileLines
    show (_append_log_entries { mkLFW 0 with file_id := none }
      (boundedLines 0 fileLines)).log_entries = []
    by_cases h : (boundedLines 0 fileLines).isEmpty
    · rw [append_log_entries_nil _ _ (by simpa using h)]
      rfl
    · rw [(append_log_entries_pos { mkLFW 0 with file_id := none }
        (boundedLines 0 fileLines) (by simpa using h)).2.2]
      exact takeLast_zero _
  · decide

/-!
## C9 — stale-session recovery in the v3 wrapper
-/

/-- C9: a v3 read through a session whose stored generation differs from the
cache's current generation first rebases the session to the cache's newest
entry index and current generation, and then delivers nothing at all — in
particular no record admitted before the rotation. -/
theorem C9_stale_session_rebased (w : V3State) (s : LogSession) (count : ℤ)
    (h : s.generation ≠ w.generation) :
    get_realtime_logs w s count =
      some ([], { start_entry_index := w.last_entry_index,
                  current_entry_offset := 0, generation := w.generation }) := by
  simp [get_realtime_logs, _recover_session, h, LogSession.reset,
    LogSession.end_position]

/-- A v3 cache in generation 5 with one resident record. -/
def wV3 : V3State :=
  { limit := 3, log_entries := [.rawRec "a" 0], last_entry_index := 0,
    generation := 5, file_position := 4 }

/-- A session created in an older generation. -/
def wSession : LogSession :=
  { start_entry_index := -1, current_entry_offset := 0, generation := 2 }

/-- Witness for `C9_stale_session_rebased` at a concrete state/session. -/
theorem C9_stale_session_rebased_witness :
    get_realtime_logs wV3 wSession 100 =
      some ([], { start_entry_index := 0, current_entry_offset := 0,
                  generation := 5 }) :=
  C9_stale_session_rebased wV3 wSession 100 (by decide)

/-!
## C10 — poll-loop backoff
-/

/-- C10: on consecutive idle polls the sleep interval stays at 0.15 s: the
top-of-loop reset tests only `_no_changes_count > 0`, so it fires on every
iteration that follows an idle one — before this iteration's observation is
known — and the interval never grows multiplicatively.  Already at the second
consecutive idle poll this contradicts the claimed `min(0.1·1.5^n, 10)`. -/
theorem C10_backoff_capped_at_first_step :
    sleepTrace initBackoff [.idle, .idle, .idle] = [3 / 20, 3 / 20, 3 / 20] ∧
    (3 / 20 : ℚ) ≠ min ((1 / 10) * (3 / 2) ^ 2) 10 := by
  constructor
  · norm_num [sleepTrace, monitorStep, initBackoff, min_def]
  · norm_num [min_def]

end PyLoggingBackend
